import Mathlib

/-!
Shallow embedding of the AMA board core (vote ledger, question lifecycle,
ranking projection, optimistic client reconciliation), translated from the
TypeScript request handlers and client state logic of the repository:

* POST /api/questions/[questionId]/vote        (vote upsert / delete / score)
* PATCH, DELETE /api/questions/[questionId]    (edit / retract with window)
* GET, POST /api/events/[eventId]/questions    (list, filter, sort, submit)
* client poll merge and vote handler           (optimistic reconciliation)

Timestamps are modelled as integers (milliseconds), ids as strings, the
database tables as lists of rows.  The `votes` table of the schema carries a
unique index on (questionId, voterId); the ledger operations are modelled on
plain row lists so that this uniqueness is a provable invariant rather than
an assumption.
-/

namespace AMA

/-- Question status enum of the schema: OPEN or ANSWERED. -/
inductive QStatus where
  | OPEN
  | ANSWERED
deriving DecidableEq, Repr, Inhabited

/-- Event lifecycle status enum of the schema: OPEN or CLOSED. -/
inductive EStatus where
  | EOPEN
  | ECLOSED
deriving DecidableEq, Repr, Inhabited

/-- Row of the `events` table (fields the handlers consult). -/
structure Event where
  id : String
  isActive : Bool
  isVotingOpen : Bool
  status : EStatus
deriving DecidableEq, Repr, Inhabited

/-- Row of the `questions` table. -/
structure Question where
  id : String
  eventId : String
  text : String
  submittedName : Option String
  isAnonymous : Bool
  status : QStatus
  isHidden : Bool
  pinnedAt : Option Int
  submitterId : Option String
  createdAt : Int
deriving DecidableEq, Repr, Inhabited

/-- Row of the `votes` table. -/
structure Vote where
  questionId : String
  voterId : String
  value : Int
deriving DecidableEq, Repr, Inhabited

/-- The relational store shared by all handlers. -/
structure Store where
  events : List Event
  questions : List Question
  votes : List Vote
deriving DecidableEq, Repr, Inhabited

/-- Typed failures of the handlers (HTTP status plus message family). -/
inductive ApiError where
  | badRequest
  | notFound
  | votingClosed
  | unauthorized
  | forbidden
  | windowExpired
deriving DecidableEq, Repr, Inhabited

/-- Does a vote row belong to the (questionId, voterId) pair? -/
def isRow (qid vid : String) (v : Vote) : Bool :=
  v.questionId = qid ∧ v.voterId = vid

/-- All rows of the ledger for one (question, voter) pair. -/
def rowsFor (votes : List Vote) (qid vid : String) : List Vote :=
  votes.filter (isRow qid vid)

/-- prisma.vote.upsert keyed on the unique index questionId_voterId:
overwrite the value of an existing row for the pair, else insert a row. -/
def upsertVote (votes : List Vote) (qid vid : String) (value : Int) : List Vote :=
  if votes.any (isRow qid vid) then
    votes.map (fun v => if isRow qid vid v then { v with value := value } else v)
  else
    votes ++ [⟨qid, vid, value⟩]

/-- prisma.vote.deleteMany for the pair (questionId, voterId). -/
def deleteVotes (votes : List Vote) (qid vid : String) : List Vote :=
  votes.filter (fun v => ¬ isRow qid vid v)

/-- prisma.vote.aggregate with _sum on value, filtered to one question:
the SQL SUM is NULL (none) when no rows match, else the sum of the values. -/
def voteAggSum (votes : List Vote) (qid : String) : Option Int :=
  let rows := votes.filter (fun v => v.questionId = qid)
  if rows.isEmpty then none else some (rows.foldl (fun s v => s + v.value) 0)

/-- The handler's score: `agg._sum.value ?? 0`. -/
def scoreOf (votes : List Vote) (qid : String) : Int :=
  (voteAggSum votes qid).getD 0

/-- Response body of the vote handler: { score, myVote }. -/
structure VoteResult where
  score : Int
  myVote : Option Int
deriving DecidableEq, Repr, Inhabited

/-- POST /api/questions/[questionId]/vote.  Validates the body value, looks
the question up, rejects non-OPEN questions (409), then deletes the pair's
row (value 0) or upserts it (value plus/minus 1) and returns the freshly
aggregated score together with the caller's resulting vote state.  The
handler consults no event fields at all. -/
def castVote (s : Store) (qid vid : String) (value : Int) :
    Except ApiError (Store × VoteResult) :=
  if ¬ (value = 1 ∨ value = -1 ∨ value = 0) then
    .error .badRequest
  else
    match s.questions.find? (fun q => q.id = qid) with
    | none => .error .notFound
    | some q =>
      if q.status ≠ .OPEN then
        .error .votingClosed
      else
        let votes' :=
          if value = 0 then deleteVotes s.votes qid vid
          else upsertVote s.votes qid vid value
        .ok ({ s with votes := votes' },
             ⟨scoreOf votes' qid, if value = 0 then none else some value⟩)

/-- Fold a whole sequence of castVote calls for one (question, voter) pair
through the store; a failing call leaves the store unchanged. -/
def castVotes (s : Store) (qid vid : String) (values : List Int) : Store :=
  values.foldl
    (fun st v =>
      match castVote st qid vid v with
      | .ok p => p.1
      | .error _ => st)
    s

/-- Specification-side score: plain sum of the stored values for a question. -/
def sumValues (votes : List Vote) (qid : String) : Int :=
  ((votes.filter (fun v => v.questionId = qid)).map (fun v => v.value)).sum

/-- Enriched question object returned by the list endpoint (and mirrored by
the client's Question type). -/
structure QuestionView where
  id : String
  eventId : String
  text : String
  submittedName : Option String
  isAnonymous : Bool
  status : QStatus
  isHidden : Bool
  pinnedAt : Option Int
  isOwn : Bool
  createdAt : Int
  score : Int
  myVote : Option Int
deriving DecidableEq, Repr, Inhabited

/-- The `votes` relation included per question by findMany. -/
def votesFor (votes : List Vote) (qid : String) : List Vote :=
  votes.filter (fun v => v.questionId = qid)

/-- The enrichment step of the GET handler: score as a reduce over the
included votes, myVote by voterId lookup, isOwn by submitterId comparison,
submittedName nulled out for anonymous questions. -/
def enrich (votes : List Vote) (voterId : Option String) (q : Question) :
    QuestionView :=
  let vs := votesFor votes q.id
  { id := q.id
    eventId := q.eventId
    text := q.text
    submittedName := if q.isAnonymous then none else q.submittedName
    isAnonymous := q.isAnonymous
    status := q.status
    isHidden := q.isHidden
    pinnedAt := q.pinnedAt
    isOwn :=
      match voterId with
      | none => false
      | some vid => q.submitterId = some vid
    createdAt := q.createdAt
    score := vs.foldl (fun s v => s + v.value) 0
    myVote :=
      match voterId with
      | none => none
      | some vid => (vs.find? (fun v => v.voterId = vid)).map (fun v => v.value) }

/-- The findMany where clause: event match, and for a non-admin caller
additionally status OPEN and not hidden. -/
def questionFilter (isAdmin : Bool) (eventId : String) (q : Question) : Bool :=
  q.eventId = eventId ∧ (isAdmin ∨ (q.status = .OPEN ∧ q.isHidden = false))

/-- Sort mode query parameter. -/
inductive SortMode where
  | score
  | newest
deriving DecidableEq, Repr, Inhabited

/-- JavaScript `x || y` on numbers: x when nonzero, else y. -/
def jsOr (x y : Int) : Int := if x ≠ 0 then x else y

/-- JavaScript truthiness of pinnedAt mapped to 1 / 0 by the comparators. -/
def pinBit (v : QuestionView) : Int := if v.pinnedAt.isSome then 1 else 0

/-- getTime of the (non-null) pin timestamp. -/
def pinTime (v : QuestionView) : Int := v.pinnedAt.getD 0

/-- Score-mode comparator: pinned bucket first, pinned mutually by pin
timestamp descending, unpinned by score descending with createdAt
descending as tiebreak. -/
def cmpScore (a b : QuestionView) : Int :=
  if pinBit b ≠ pinBit a then pinBit b - pinBit a
  else if pinBit a = 1 ∧ pinBit b = 1 then pinTime b - pinTime a
  else jsOr (b.score - a.score) (b.createdAt - a.createdAt)

/-- Newest-mode comparator: pinned bucket first, then createdAt descending
for every remaining pair (the pin timestamp is not consulted). -/
def cmpNewest (a b : QuestionView) : Int :=
  if pinBit b ≠ pinBit a then pinBit b - pinBit a
  else b.createdAt - a.createdAt

/-- Boolean order relation induced by the score-mode comparator. -/
def leScore (a b : QuestionView) : Bool := cmpScore a b ≤ 0

/-- Boolean order relation induced by the newest-mode comparator. -/
def leNewest (a b : QuestionView) : Bool := cmpNewest a b ≤ 0

/-- Array.prototype.sort with the mode's comparator (a stable sort whose
output is ordered by the comparator). -/
def sortViews (mode : SortMode) (l : List QuestionView) : List QuestionView :=
  match mode with
  | .score => l.mergeSort leScore
  | .newest => l.mergeSort leNewest

/-- GET /api/events/[eventId]/questions: 404 if the event is absent, else
filter (full set for an admin, OPEN and not hidden for the public), enrich,
and sort with the requested mode's comparator. -/
def listQuestions (s : Store) (eventId : String) (mode : SortMode)
    (isAdmin : Bool) (voterId : Option String) :
    Except ApiError (List QuestionView) :=
  match s.events.find? (fun e => e.id = eventId) with
  | none => .error .notFound
  | some _ =>
    .ok (sortViews mode
      ((s.questions.filter (questionFilter isAdmin eventId)).map
        (enrich s.votes voterId)))

/-- JavaScript String.prototype.trim modelled on the character list: drop
whitespace from both ends (computable by plain structural recursion). -/
def jsTrim (s : String) : String :=
  ⟨((s.data.dropWhile Char.isWhitespace).reverse.dropWhile
      Char.isWhitespace).reverse⟩

/-- The 2-minute edit window constant shared by PATCH and DELETE. -/
def EDIT_WINDOW_MS : Int := 2 * 60 * 1000

/-- PATCH /api/questions/[questionId]: 401 without a voter cookie, 404 if
the question is absent, 403 if the caller is not the stored submitter, 403
(window expired) if now minus createdAt exceeds the window, 400 on empty or
over-length trimmed text, else the text is updated. -/
def editQuestion (s : Store) (qid : String) (voterId : Option String)
    (text : String) (now : Int) : Except ApiError Store :=
  match voterId with
  | none => .error .unauthorized
  | some vid =>
    match s.questions.find? (fun q => q.id = qid) with
    | none => .error .notFound
    | some q =>
      if q.submitterId ≠ some vid then .error .forbidden
      else if now - q.createdAt > EDIT_WINDOW_MS then .error .windowExpired
      else
        if jsTrim text = "" then .error .badRequest
        else if (jsTrim text).length > 280 then .error .badRequest
        else
          .ok { s with
            questions := s.questions.map
              (fun q' => if q'.id = qid then { q' with text := jsTrim text }
                         else q') }

/-- DELETE /api/questions/[questionId]: same guards as PATCH, then the
question row is deleted (votes cascade via the foreign key). -/
def retractQuestion (s : Store) (qid : String) (voterId : Option String)
    (now : Int) : Except ApiError Store :=
  match voterId with
  | none => .error .unauthorized
  | some vid =>
    match s.questions.find? (fun q => q.id = qid) with
    | none => .error .notFound
    | some q =>
      if q.submitterId ≠ some vid then .error .forbidden
      else if now - q.createdAt > EDIT_WINDOW_MS then .error .windowExpired
      else
        .ok { s with
          questions := s.questions.filter (fun q' => ¬ q'.id = qid)
          votes := s.votes.filter (fun v => ¬ v.questionId = qid) }

/-- The handler's submittedName computation: null when anonymous, else the
trimmed client name with empty collapsing to null. -/
def submittedNameOf (isAnonymous : Bool) (submittedName : Option String) :
    Option String :=
  if isAnonymous then none
  else (submittedName.map jsTrim).bind
    (fun n => if n = "" then none else some n)

/-- The question row created by the submission handler. -/
def newQuestion (eventId text : String) (isAnonymous : Bool)
    (submittedName : Option String) (voterCookie : Option String)
    (newId : String) (now : Int) : Question :=
  { id := newId
    eventId := eventId
    text := jsTrim text
    submittedName := submittedNameOf isAnonymous submittedName
    isAnonymous := isAnonymous
    status := .OPEN
    isHidden := false
    pinnedAt := none
    submitterId := voterCookie
    createdAt := now }

/-- POST /api/events/[eventId]/questions: 404 unless an active event
matches, validations on trimmed text and name, then a question row is
created whose submitterId is the voter cookie value or null. -/
def submitQuestion (s : Store) (eventId : String) (text : String)
    (isAnonymous : Bool) (submittedName : Option String)
    (voterCookie : Option String) (newId : String) (now : Int) :
    Except ApiError (Store × Question) :=
  match s.events.find? (fun e => e.id = eventId ∧ e.isActive) with
  | none => .error .notFound
  | some _ =>
    if jsTrim text = "" then .error .badRequest
    else if (jsTrim text).length > 280 then .error .badRequest
    else if ¬ isAnonymous ∧ submittedNameOf isAnonymous submittedName = none
      then .error .badRequest
    else
      .ok ({ s with questions := s.questions ++
              [newQuestion eventId text isAnonymous submittedName voterCookie
                newId now] },
           newQuestion eventId text isAnonymous submittedName voterCookie
             newId now)

/-- The client's localMap lookup: a JS Map built from the localQs list keeps
the last entry written per id. -/
def lookupLocal (localQs : List QuestionView) (i : String) : Option QuestionView :=
  localQs.reverse.find? (fun q => q.id = i)

/-- The client poll merge of fetchQuestions: the refreshed server batch
shapes the result; a question whose id is marked in-flight keeps the localQs
copy when one exists, every other question takes the server copy. -/
def mergePoll (localQs server : List QuestionView) (inFlight : List String) :
    List QuestionView :=
  server.map (fun sq =>
    if inFlight.contains sq.id then (lookupLocal localQs sq.id).getD sq else sq)

/-- The client's handling of a successful vote response: the question's
score and myVote are replaced by the response body of the write itself. -/
def applyVoteResponse (qs : List QuestionView) (qid : String) (score : Int)
    (myVote : Option Int) : List QuestionView :=
  qs.map (fun q =>
    if q.id = qid then { q with score := score, myVote := myVote } else q)

/-! ## Shared sample data for witnesses and counterexamples -/

/-- Sample question: OPEN, visible, submitted by alice at time 0. -/
def qA : Question :=
  { id := "q1", eventId := "e1", text := "hello", submittedName := some "Ann",
    isAnonymous := false, status := .OPEN, isHidden := false, pinnedAt := none,
    submitterId := some "alice", createdAt := 0 }

/-- Sample event whose voting-open flag is false. -/
def evA : Event :=
  { id := "e1", isActive := true, isVotingOpen := false, status := .EOPEN }

/-- Sample store: one event with voting closed, one OPEN question, no votes. -/
def storeA : Store := { events := [evA], questions := [qA], votes := [] }

/-! ## Vote ledger lemmas -/

lemma isRow_update (qid vid : String) (v : Vote) (w : Int) :
    isRow qid vid { v with value := w } = isRow qid vid v := by
  simp [isRow]

lemma rowsFor_deleteVotes (votes : List Vote) (qid vid : String) :
    rowsFor (deleteVotes votes qid vid) qid vid = [] := by
  rw [rowsFor, deleteVotes, List.filter_eq_nil_iff]
  intro v hv
  rcases List.mem_filter.mp hv with ⟨-, hns⟩
  simpa using hns

lemma rowsFor_map_update (votes : List Vote) (qid vid : String) (w : Int) :
    rowsFor
      (votes.map (fun v => if isRow qid vid v then { v with value := w } else v))
      qid vid
      = (rowsFor votes qid vid).map (fun v => { v with value := w }) := by
  rw [rowsFor, List.filter_map, rowsFor]
  have h1 :
      List.filter
        (isRow qid vid ∘
          fun v => if isRow qid vid v then { v with value := w } else v) votes
        = List.filter (isRow qid vid) votes := by
    apply List.filter_congr
    intro x _
    by_cases hx : isRow qid vid x = true
    · simp [Function.comp, hx, isRow_update]
    · have hx' : isRow qid vid x = false := by simpa using hx
      simp [Function.comp, hx']
  rw [h1]
  apply List.map_congr_left
  intro x hx
  have hxr := (List.mem_filter.mp hx).2
  simp [hxr]

lemma rowsFor_upsertVote (votes : List Vote) (qid vid : String) (w : Int)
    (h : rowsFor votes qid vid = [] ∨
         ∃ u, rowsFor votes qid vid = [⟨qid, vid, u⟩]) :
    rowsFor (upsertVote votes qid vid w) qid vid = [⟨qid, vid, w⟩] := by
  rcases h with h | ⟨u, h⟩
  · have hnone := List.filter_eq_nil_iff.mp h
    have hany : votes.any (isRow qid vid) = false := by
      rw [← Bool.not_eq_true, List.any_eq_true]
      rintro ⟨x, hx, hrx⟩
      exact hnone x hx hrx
    rw [upsertVote, if_neg (by simp [hany]), rowsFor, List.filter_append]
    rw [rowsFor] at h
    rw [h]
    simp [isRow]
  · have hmem : (⟨qid, vid, u⟩ : Vote) ∈ rowsFor votes qid vid := by
      rw [h]; exact List.mem_singleton.mpr rfl
    rcases List.mem_filter.mp hmem with ⟨hmem', hrow⟩
    have hany : votes.any (isRow qid vid) = true :=
      List.any_eq_true.mpr ⟨_, hmem', hrow⟩
    rw [upsertVote, if_pos (by simp [hany]), rowsFor_map_update, h]
    rfl

lemma castVote_ok (s : Store) (qid vid : String) (value : Int) (q : Question)
    (hval : value = 1 ∨ value = -1 ∨ value = 0)
    (hq : s.questions.find? (fun q' => q'.id = qid) = some q)
    (hopen : q.status = QStatus.OPEN) :
    castVote s qid vid value =
      Except.ok
        ({ s with votes := if value = 0 then deleteVotes s.votes qid vid
                           else upsertVote s.votes qid vid value },
         ⟨scoreOf (if value = 0 then deleteVotes s.votes qid vid
                   else upsertVote s.votes qid vid value) qid,
          if value = 0 then none else some value⟩) := by
  rcases hval with h | h | h <;> subst h <;> simp [castVote, hq, hopen]

lemma castVotes_cons (s : Store) (qid vid : String) (v : Int) (t : List Int) :
    castVotes s qid vid (v :: t) =
      castVotes
        (match castVote s qid vid v with
         | .ok p => p.1
         | .error _ => s) qid vid t := rfl

lemma castVotes_rowsFor (qid vid : String) (q : Question) :
    ∀ (values : List Int) (s : Store),
      (∀ x ∈ values, x = 1 ∨ x = -1 ∨ x = 0) →
      s.questions.find? (fun q' => q'.id = qid) = some q →
      q.status = QStatus.OPEN →
      (rowsFor s.votes qid vid = [] ∨
       ∃ u, rowsFor s.votes qid vid = [⟨qid, vid, u⟩]) →
      rowsFor (castVotes s qid vid values).votes qid vid =
        values.foldl
          (fun _ x => if x = 0 then ([] : List Vote) else [⟨qid, vid, x⟩])
          (rowsFor s.votes qid vid) := by
  intro values
  induction values with
  | nil => intro s _ _ _ _; rfl
  | cons v t ih =>
    intro s hall hq hopen hinv
    have hv : v = 1 ∨ v = -1 ∨ v = 0 := hall v (by simp)
    rw [castVotes_cons, castVote_ok s qid vid v q hv hq hopen]
    have hrows :
        rowsFor (if v = 0 then deleteVotes s.votes qid vid
                 else upsertVote s.votes qid vid v) qid vid =
          (if v = 0 then ([] : List Vote) else [⟨qid, vid, v⟩]) := by
      by_cases h0 : v = 0
      · simp [h0, rowsFor_deleteVotes]
      · simp [h0, rowsFor_upsertVote s.votes qid vid v hinv]
    rw [List.foldl_cons, ← hrows]
    exact ih _ (fun x hx => hall x (by simp [hx])) hq hopen
      (by rw [hrows]; by_cases h0 : v = 0 <;> simp [h0])

lemma foldl_const_fun {α β : Type} (g : β → α) :
    ∀ (l : List β) (init : α),
      l.foldl (fun _ x => g x) init = (l.getLast?.map g).getD init := by
  intro l
  induction l with
  | nil => intro init; rfl
  | cons v t ih =>
    intro init
    cases t with
    | nil => simp
    | cons w u =>
      rw [List.foldl_cons, ih, List.getLast?_cons_cons]
      cases h : (w :: u).getLast? with
      | none => simp at h
      | some x => rfl

/-- C1: for every question q and voter v, after any finite sequence of
castVote(q, v, value) calls with values in -1/0/+1 on an existing OPEN
question, the vote store holds at most one row for the pair (q, v); that
row's value is the last non-zero value passed, and no row exists when the
last call passed 0. -/
theorem vote_ledger_at_most_one_row_last_write_wins
    (s : Store) (qid vid : String) (values : List Int) (q : Question)
    (hall : ∀ x ∈ values, x = 1 ∨ x = -1 ∨ x = 0)
    (hq : s.questions.find? (fun q' => q'.id = qid) = some q)
    (hopen : q.status = QStatus.OPEN)
    (hinit : rowsFor s.votes qid vid = []) :
    (rowsFor (castVotes s qid vid values).votes qid vid).length ≤ 1 ∧
    rowsFor (castVotes s qid vid values).votes qid vid =
      ((values.getLast?.map
          (fun x => if x = 0 then [] else [⟨qid, vid, x⟩])).getD []) := by
  have hmain := castVotes_rowsFor qid vid q values s hall hq hopen (Or.inl hinit)
  rw [foldl_const_fun] at hmain
  rw [hinit] at hmain
  refine ⟨?_, hmain⟩
  rw [hmain]
  cases values.getLast? with
  | none => simp
  | some x => by_cases h0 : x = 0 <;> simp [h0]

/-- Witness for C1: in the sample store the hypotheses hold and the run
upvote, downvote, clear, upvote ends with exactly the single row value 1. -/
theorem vote_ledger_at_most_one_row_last_write_wins_witness :
    rowsFor storeA.votes "q1" "v1" = [] ∧
    rowsFor (castVotes storeA "q1" "v1" [1, -1, 0, 1]).votes "q1" "v1" =
      (([(1 : Int), -1, 0, 1].getLast?.map
          (fun x => if x = 0 then [] else [⟨"q1", "v1", x⟩])).getD []) :=
  ⟨by decide,
   (vote_ledger_at_most_one_row_last_write_wins storeA "q1" "v1" [1, -1, 0, 1]
      qA (by decide) (by decide) (by decide) (by decide)).2⟩

/-! ## Voting-closed checks (C2, C10) -/

/-- C2 counterexample: in the sample store the only event's voting-open
flag is false, yet castVote on its OPEN question succeeds and changes the
vote store instead of failing with VotingClosed. -/
theorem castVote_ignores_voting_open_flag_cex :
    (∀ e ∈ storeA.events, e.isVotingOpen = false) ∧
    (∃ p, castVote storeA "q1" "v1" 1 = Except.ok p ∧
      p.1.votes ≠ storeA.votes) :=
  ⟨by decide,
   ⟨({ storeA with votes := [⟨"q1", "v1", 1⟩] }, ⟨1, some 1⟩),
    by rfl, by decide⟩⟩

/-- C2 amended: castVote rejects with the VotingClosed-style 409 exactly
when the target question's status is not OPEN; the parent event's
voting-open flag and lifecycle status are never consulted, so replacing the
events table leaves the outcome unchanged (event-level gating lives only in
the client UI). -/
theorem castVote_rejects_iff_question_not_open
    (s : Store) (qid vid : String) (value : Int) (q : Question)
    (hval : value = 1 ∨ value = -1 ∨ value = 0)
    (hq : s.questions.find? (fun q' => q'.id = qid) = some q) :
    ((castVote s qid vid value = .error .votingClosed) ↔
      q.status ≠ QStatus.OPEN) ∧
    (∀ es : List Event,
      castVote { s with events := es } qid vid value =
        (castVote s qid vid value).map
          (fun p => ({ p.1 with events := es }, p.2))) := by
  have hq2 : ∀ es : List Event,
      ({ s with events := es } : Store).questions.find?
        (fun q' => q'.id = qid) = some q := fun _ => hq
  cases hst : q.status with
  | OPEN =>
    constructor
    · rw [castVote_ok s qid vid value q hval hq hst]
      simp [hst]
    · intro es
      rw [castVote_ok s qid vid value q hval hq hst,
          castVote_ok { s with events := es } qid vid value q hval (hq2 es) hst]
      rfl
  | ANSWERED =>
    have hcv : castVote s qid vid value = .error .votingClosed := by
      rcases hval with h | h | h <;> subst h <;> simp [castVote, hq, hst]
    constructor
    · simp [hcv, hst]
    · intro es
      have hcv2 : castVote { s with events := es } qid vid value =
          .error .votingClosed := by
        rcases hval with h | h | h <;> subst h <;>
          simp [castVote, hq2 es, hst]
      rw [hcv, hcv2]
      rfl

/-- Witness for the amended C2 at the sample store. -/
theorem castVote_rejects_iff_question_not_open_witness :
    ((castVote storeA "q1" "v1" 1 = .error .votingClosed) ↔
      qA.status ≠ QStatus.OPEN) ∧
    (∀ es : List Event,
      castVote { storeA with events := es } "q1" "v1" 1 =
        (castVote storeA "q1" "v1" 1).map
          (fun p => ({ p.1 with events := es }, p.2))) :=
  castVote_rejects_iff_question_not_open storeA "q1" "v1" 1 qA
    (by decide) (by decide)

/-- C10: castVote never consults the hidden flag: with the question present
and the value valid, success is equivalent to status OPEN whatever isHidden
is, the rejection is equivalent to status ANSWERED, and on an OPEN question
the ledger is updated by the delete or upsert of the pair's row. -/
theorem castVote_ignores_hidden_flag
    (s : Store) (qid vid : String) (value : Int) (q : Question)
    (hq : s.questions.find? (fun q' => q'.id = qid) = some q)
    (hval : value = 1 ∨ value = -1 ∨ value = 0) :
    ((∃ p, castVote s qid vid value = Except.ok p) ↔
      q.status = QStatus.OPEN) ∧
    ((castVote s qid vid value = .error .votingClosed) ↔
      q.status = QStatus.ANSWERED) ∧
    (q.status = QStatus.OPEN →
      castVote s qid vid value =
        Except.ok
          ({ s with votes := if value = 0 then deleteVotes s.votes qid vid
                             else upsertVote s.votes qid vid value },
           ⟨scoreOf (if value = 0 then deleteVotes s.votes qid vid
                     else upsertVote s.votes qid vid value) qid,
            if value = 0 then none else some value⟩)) := by
  cases hst : q.status with
  | OPEN =>
    have hok := castVote_ok s qid vid value q hval hq hst
    refine ⟨⟨fun _ => rfl, fun _ => ⟨_, hok⟩⟩, ?_, fun _ => hok⟩
    rw [hok]
    simp
  | ANSWERED =>
    have hcv : castVote s qid vid value = .error .votingClosed := by
      rcases hval with h | h | h <;> subst h <;> simp [castVote, hq, hst]
    refine ⟨?_, by simp [hcv], fun hopen => absurd hopen (by simp [hst])⟩
    rw [hcv]
    constructor
    · rintro ⟨p, hp⟩
      exact Except.noConfusion hp
    · intro h
      exact absurd h (by simp [hst])

/-- Witness for C10 on a hidden OPEN question. -/
theorem castVote_ignores_hidden_flag_witness :
    ((∃ p, castVote
        { storeA with questions := [{ qA with isHidden := true }] }
        "q1" "v1" 1 = Except.ok p) ↔
      ({ qA with isHidden := true } : Question).status = QStatus.OPEN) ∧
    ((castVote { storeA with questions := [{ qA with isHidden := true }] }
        "q1" "v1" 1 = .error .votingClosed) ↔
      ({ qA with isHidden := true } : Question).status = QStatus.ANSWERED) ∧
    (({ qA with isHidden := true } : Question).status = QStatus.OPEN →
      castVote { storeA with questions := [{ qA with isHidden := true }] }
        "q1" "v1" 1 =
        Except.ok
          ({ { storeA with questions := [{ qA with isHidden := true }] } with
              votes := if (1 : Int) = 0 then
                  deleteVotes storeA.votes "q1" "v1"
                else upsertVote storeA.votes "q1" "v1" 1 },
           ⟨scoreOf (if (1 : Int) = 0 then
                  deleteVotes storeA.votes "q1" "v1"
                else upsertVote storeA.votes "q1" "v1" 1) "q1",
            if (1 : Int) = 0 then none else some 1⟩)) :=
  castVote_ignores_hidden_flag
    { storeA with questions := [{ qA with isHidden := true }] }
    "q1" "v1" 1 { qA with isHidden := true } (by decide) (by decide)

/-! ## Score correctness (C3) -/

lemma scoreOf_eq_sumValues (votes : List Vote) (qid : String) :
    scoreOf votes qid = sumValues votes qid := by
  simp only [scoreOf, voteAggSum, sumValues, List.sum_eq_foldl, List.foldl_map]
  by_cases h : (votes.filter (fun v => v.questionId = qid)).isEmpty
  · rw [if_pos h]
    rw [List.isEmpty_iff.mp h]
    rfl
  · rw [if_neg h]
    rfl

/-- C3: the score returned by a successful castVote equals the sum of the
stored vote values for that question in the post-state, and the score on
every view built by the list endpoint's enrichment equals the sum of the
stored vote values for that question; both are recomputed from the vote
rows at read time (the Question row carries no score field at all). -/
theorem score_is_sum_of_votes :
    (∀ (s : Store) (qid vid : String) (value : Int) (s' : Store)
        (r : VoteResult),
      castVote s qid vid value = Except.ok (s', r) →
      r.score = sumValues s'.votes qid) ∧
    (∀ (votes : List Vote) (voterId : Option String) (q : Question),
      (enrich votes voterId q).score = sumValues votes q.id) := by
  constructor
  · intro s qid vid value s' r h
    unfold castVote at h
    split at h
    · exact Except.noConfusion h
    · split at h
      · exact Except.noConfusion h
      · split at h
        · exact Except.noConfusion h
        · injection h with h
          injection h with hA hB
          subst hA
          subst hB
          exact scoreOf_eq_sumValues _ _
  · intro votes voterId q
    simp only [enrich, votesFor, sumValues, List.sum_eq_foldl, List.foldl_map]

/-- Witness for C3 at a concrete successful castVote. -/
theorem score_is_sum_of_votes_witness :
    castVote storeA "q1" "v1" 1 =
      Except.ok ({ storeA with votes := [⟨"q1", "v1", 1⟩] }, ⟨1, some 1⟩) ∧
    (⟨1, some 1⟩ : VoteResult).score =
      sumValues ({ storeA with votes := [⟨"q1", "v1", 1⟩] } : Store).votes
        "q1" :=
  ⟨by rfl,
   score_is_sum_of_votes.1 storeA "q1" "v1" 1
     { storeA with votes := [⟨"q1", "v1", 1⟩] } ⟨1, some 1⟩ (by rfl)⟩

/-! ## Ranking comparator lemmas (C4, C5) -/

lemma jsOr_le (x y : Int) : jsOr x y ≤ 0 ↔ (x < 0 ∨ (x = 0 ∧ y ≤ 0)) := by
  unfold jsOr
  split_ifs <;> omega

lemma cmpScore_nn (a b : QuestionView)
    (ha : a.pinnedAt = none) (hb : b.pinnedAt = none) :
    cmpScore a b = jsOr (b.score - a.score) (b.createdAt - a.createdAt) := by
  simp [cmpScore, pinBit, ha, hb]

lemma cmpScore_ss (a b : QuestionView) (x y : Int)
    (ha : a.pinnedAt = some x) (hb : b.pinnedAt = some y) :
    cmpScore a b = y - x := by
  simp [cmpScore, pinBit, pinTime, ha, hb]

lemma cmpScore_ns (a b : QuestionView) (y : Int)
    (ha : a.pinnedAt = none) (hb : b.pinnedAt = some y) :
    cmpScore a b = 1 := by
  simp [cmpScore, pinBit, ha, hb]

lemma cmpScore_sn (a b : QuestionView) (x : Int)
    (ha : a.pinnedAt = some x) (hb : b.pinnedAt = none) :
    cmpScore a b = -1 := by
  simp [cmpScore, pinBit, ha, hb]

lemma cmpNewest_nn (a b : QuestionView)
    (ha : a.pinnedAt = none) (hb : b.pinnedAt = none) :
    cmpNewest a b = b.createdAt - a.createdAt := by
  simp [cmpNewest, pinBit, ha, hb]

lemma cmpNewest_ss (a b : QuestionView) (x y : Int)
    (ha : a.pinnedAt = some x) (hb : b.pinnedAt = some y) :
    cmpNewest a b = b.createdAt - a.createdAt := by
  simp [cmpNewest, pinBit, ha, hb]

lemma cmpNewest_ns (a b : QuestionView) (y : Int)
    (ha : a.pinnedAt = none) (hb : b.pinnedAt = some y) :
    cmpNewest a b = 1 := by
  simp [cmpNewest, pinBit, ha, hb]

lemma cmpNewest_sn (a b : QuestionView) (x : Int)
    (ha : a.pinnedAt = some x) (hb : b.pinnedAt = none) :
    cmpNewest a b = -1 := by
  simp [cmpNewest, pinBit, ha, hb]

lemma cmpScore_trans (a b c : QuestionView)
    (h1 : cmpScore a b ≤ 0) (h2 : cmpScore b c ≤ 0) : cmpScore a c ≤ 0 := by
  cases ha : a.pinnedAt with
  | none =>
    cases hb : b.pinnedAt with
    | none =>
      cases hc : c.pinnedAt with
      | none =>
        rw [cmpScore_nn a b ha hb, jsOr_le] at h1
        rw [cmpScore_nn b c hb hc, jsOr_le] at h2
        rw [cmpScore_nn a c ha hc, jsOr_le]
        omega
      | some z =>
        rw [cmpScore_ns b c z hb hc] at h2
        omega
    | some y =>
      rw [cmpScore_ns a b y ha hb] at h1
      omega
  | some x =>
    cases hc : c.pinnedAt with
    | none =>
      rw [cmpScore_sn a c x ha hc]
      omega
    | some z =>
      cases hb : b.pinnedAt with
      | none =>
        rw [cmpScore_ns b c z hb hc] at h2
        omega
      | some y =>
        rw [cmpScore_ss a b x y ha hb] at h1
        rw [cmpScore_ss b c y z hb hc] at h2
        rw [cmpScore_ss a c x z ha hc]
        omega

lemma cmpScore_total (a b : QuestionView) :
    cmpScore a b ≤ 0 ∨ cmpScore b a ≤ 0 := by
  cases ha : a.pinnedAt with
  | none =>
    cases hb : b.pinnedAt with
    | none =>
      rw [cmpScore_nn a b ha hb, cmpScore_nn b a hb ha, jsOr_le, jsOr_le]
      omega
    | some y =>
      rw [cmpScore_sn b a y hb ha]
      omega
  | some x =>
    cases hb : b.pinnedAt with
    | none =>
      rw [cmpScore_sn a b x ha hb]
      omega
    | some y =>
      rw [cmpScore_ss a b x y ha hb, cmpScore_ss b a y x hb ha]
      omega

lemma cmpNewest_trans (a b c : QuestionView)
    (h1 : cmpNewest a b ≤ 0) (h2 : cmpNewest b c ≤ 0) : cmpNewest a c ≤ 0 := by
  cases ha : a.pinnedAt with
  | none =>
    cases hb : b.pinnedAt with
    | none =>
      cases hc : c.pinnedAt with
      | none =>
        rw [cmpNewest_nn a b ha hb] at h1
        rw [cmpNewest_nn b c hb hc] at h2
        rw [cmpNewest_nn a c ha hc]
        omega
      | some z =>
        rw [cmpNewest_ns b c z hb hc] at h2
        omega
    | some y =>
      rw [cmpNewest_ns a b y ha hb] at h1
      omega
  | some x =>
    cases hc : c.pinnedAt with
    | none =>
      rw [cmpNewest_sn a c x ha hc]
      omega
    | some z =>
      cases hb : b.pinnedAt with
      | none =>
        rw [cmpNewest_ns b c z hb hc] at h2
        omega
      | some y =>
        rw [cmpNewest_ss a b x y ha hb] at h1
        rw [cmpNewest_ss b c y z hb hc] at h2
        rw [cmpNewest_ss a c x z ha hc]
        omega

lemma cmpNewest_total (a b : QuestionView) :
    cmpNewest a b ≤ 0 ∨ cmpNewest b a ≤ 0 := by
  cases ha : a.pinnedAt with
  | none =>
    cases hb : b.pinnedAt with
    | none =>
      rw [cmpNewest_nn a b ha hb, cmpNewest_nn b a hb ha]
      omega
    | some y =>
      rw [cmpNewest_sn b a y hb ha]
      omega
  | some x =>
    cases hb : b.pinnedAt with
    | none =>
      rw [cmpNewest_sn a b x ha hb]
      omega
    | some y =>
      rw [cmpNewest_ss a b x y ha hb, cmpNewest_ss b a y x hb ha]
      omega

lemma leScore_trans : ∀ (a b c : QuestionView),
    leScore a b = true → leScore b c = true → leScore a c = true := by
  intro a b c h1 h2
  simp only [leScore, decide_eq_true_eq] at h1 h2 ⊢
  exact cmpScore_trans a b c h1 h2

lemma leScore_total : ∀ (a b : QuestionView),
    (leScore a b || leScore b a) = true := by
  intro a b
  simp only [leScore, Bool.or_eq_true, decide_eq_true_eq]
  exact cmpScore_total a b

lemma leNewest_trans : ∀ (a b c : QuestionView),
    leNewest a b = true → leNewest b c = true → leNewest a c = true := by
  intro a b c h1 h2
  simp only [leNewest, decide_eq_true_eq] at h1 h2 ⊢
  exact cmpNewest_trans a b c h1 h2

lemma leNewest_total : ∀ (a b : QuestionView),
    (leNewest a b || leNewest b a) = true := by
  intro a b
  simp only [leNewest, Bool.or_eq_true, decide_eq_true_eq]
  exact cmpNewest_total a b

lemma leScore_rel (a b : QuestionView) (h : leScore a b = true) :
    (b.pinnedAt ≠ none → a.pinnedAt ≠ none) ∧
    (∀ ta tb : Int, a.pinnedAt = some ta → b.pinnedAt = some tb → tb ≤ ta) ∧
    (a.pinnedAt = none → b.pinnedAt = none →
      b.score < a.score ∨ (b.score = a.score ∧ b.createdAt ≤ a.createdAt)) := by
  simp only [leScore, decide_eq_true_eq] at h
  cases ha : a.pinnedAt with
  | none =>
    cases hb : b.pinnedAt with
    | none =>
      rw [cmpScore_nn a b ha hb, jsOr_le] at h
      refine ⟨by simp [hb], by simp [ha], fun _ _ => ?_⟩
      omega
    | some y =>
      rw [cmpScore_ns a b y ha hb] at h
      omega
  | some x =>
    cases hb : b.pinnedAt with
    | none => simp [ha, hb]
    | some y =>
      rw [cmpScore_ss a b x y ha hb] at h
      refine ⟨by simp [ha], ?_, by simp [ha]⟩
      intro ta tb hta htb
      injection hta with hta
      injection htb with htb
      omega

lemma leNewest_rel (a b : QuestionView) (h : leNewest a b = true) :
    (b.pinnedAt ≠ none → a.pinnedAt ≠ none) ∧
    ((a.pinnedAt = none ↔ b.pinnedAt = none) → b.createdAt ≤ a.createdAt) := by
  simp only [leNewest, decide_eq_true_eq] at h
  cases ha : a.pinnedAt with
  | none =>
    cases hb : b.pinnedAt with
    | none =>
      rw [cmpNewest_nn a b ha hb] at h
      exact ⟨by simp [hb], fun _ => by omega⟩
    | some y =>
      rw [cmpNewest_ns a b y ha hb] at h
      omega
  | some x =>
    cases hb : b.pinnedAt with
    | none =>
      refine ⟨by simp [hb], fun hiff => ?_⟩
      exact absurd (hiff.mpr rfl) (by simp [ha])
    | some y =>
      rw [cmpNewest_ss a b x y ha hb] at h
      exact ⟨by simp [ha], fun _ => by omega⟩

/-- C4: in score mode the projected list has every pinned question before
every unpinned one, pinned questions mutually ordered by descending pin
timestamp (most recently pinned first), and unpinned questions ordered by
descending score with descending creation time breaking ties; moreover
pinned-before-unpinned dominance also holds for the newest-mode sort. -/
theorem score_mode_ordering (l : List QuestionView) :
    ((sortViews .score l).Pairwise (fun a b =>
      (b.pinnedAt ≠ none → a.pinnedAt ≠ none) ∧
      (∀ ta tb : Int, a.pinnedAt = some ta → b.pinnedAt = some tb → tb ≤ ta) ∧
      (a.pinnedAt = none → b.pinnedAt = none →
        b.score < a.score ∨
          (b.score = a.score ∧ b.createdAt ≤ a.createdAt)))) ∧
    ((sortViews .newest l).Pairwise (fun a b =>
      b.pinnedAt ≠ none → a.pinnedAt ≠ none)) := by
  constructor
  · have hs := List.sorted_mergeSort leScore_trans leScore_total l
    exact hs.imp (fun h => leScore_rel _ _ h)
  · have hs := List.sorted_mergeSort leNewest_trans leNewest_total l
    exact hs.imp (fun h => (leNewest_rel _ _ h).1)

/-- Sample pinned view used by the newest-mode counterexample. -/
def viewP (pin created : Int) : QuestionView :=
  { id := "x", eventId := "e1", text := "t", submittedName := none,
    isAnonymous := true, status := .OPEN, isHidden := false,
    pinnedAt := some pin, isOwn := false, createdAt := created,
    score := 0, myVote := none }

/-- C5 counterexample: in newest mode two pinned questions are NOT ordered
by descending pin timestamp: the question pinned at time 5 but created at
time 20 sorts before the question pinned at time 10 and created at 10. -/
theorem newest_mode_pin_order_cex :
    ¬ ((sortViews .newest [viewP 5 20, viewP 10 10]).Pairwise
      (fun a b => ∀ ta tb : Int,
        a.pinnedAt = some ta → b.pinnedAt = some tb → tb ≤ ta)) := by
  have hsort : sortViews .newest [viewP 5 20, viewP 10 10]
      = [viewP 5 20, viewP 10 10] := by
    simp [sortViews, List.mergeSort, leNewest, cmpNewest, pinBit, viewP]
  rw [hsort]
  intro hp
  rcases List.pairwise_cons.mp hp with ⟨h1, -⟩
  have h2 := h1 (viewP 10 10) (by simp) 5 10 rfl rfl
  omega

/-- C5 amended: in newest mode every pinned question precedes every
unpinned question, and any two questions in the same pin bucket are ordered
by descending creation time; the pin timestamp is not consulted, so pinned
questions are mutually ordered by creation time rather than pin time. -/
theorem newest_mode_ordering (l : List QuestionView) :
    (sortViews .newest l).Pairwise (fun a b =>
      (b.pinnedAt ≠ none → a.pinnedAt ≠ none) ∧
      ((a.pinnedAt = none ↔ b.pinnedAt = none) →
        b.createdAt ≤ a.createdAt)) := by
  have hs := List.sorted_mergeSort leNewest_trans leNewest_total l
  exact hs.imp (fun h => leNewest_rel _ _ h)

/-! ## Edit and retract guards (C6, C9) -/

/-- The edit/retract access-control property for one found question: a
non-submitter is rejected Forbidden at any time, the submitter is rejected
WindowExpired strictly after the 120-second window, a well-formed attempt
by the submitter strictly before the deadline succeeds, and success is only
possible for the submitter within the window. -/
def EditRetractSpec (s : Store) (qid : String) (q : Question) : Prop :=
  (∀ (vid text : String) (now : Int), q.submitterId ≠ some vid →
      editQuestion s qid (some vid) text now = .error .forbidden ∧
      retractQuestion s qid (some vid) now = .error .forbidden) ∧
  (∀ (vid text : String) (now : Int), q.submitterId = some vid →
      now - q.createdAt > EDIT_WINDOW_MS →
      editQuestion s qid (some vid) text now = .error .windowExpired ∧
      retractQuestion s qid (some vid) now = .error .windowExpired) ∧
  (∀ (vid : String) (now : Int), q.submitterId = some vid →
      now - q.createdAt < EDIT_WINDOW_MS →
      (∃ s2, retractQuestion s qid (some vid) now = Except.ok s2) ∧
      (∀ text : String, jsTrim text ≠ "" → (jsTrim text).length ≤ 280 →
        ∃ s2, editQuestion s qid (some vid) text now = Except.ok s2)) ∧
  (∀ (vid text : String) (now : Int) (s2 : Store),
      editQuestion s qid (some vid) text now = Except.ok s2 →
      q.submitterId = some vid ∧ now - q.createdAt ≤ EDIT_WINDOW_MS) ∧
  (∀ (vid : String) (now : Int) (s2 : Store),
      retractQuestion s qid (some vid) now = Except.ok s2 →
      q.submitterId = some vid ∧ now - q.createdAt ≤ EDIT_WINDOW_MS)

/-- C6: an edit or retract succeeds only for the caller whose voter
identity equals the stored submitter identity and only within the
120-second window from creation; a submitter attempt strictly before the
deadline succeeds, strictly after it fails with WindowExpired, and any
other voter identity fails with Forbidden regardless of timing. -/
theorem edit_retract_window_and_ownership
    (s : Store) (qid : String) (q : Question)
    (hq : s.questions.find? (fun q' => q'.id = qid) = some q) :
    EditRetractSpec s qid q := by
  refine ⟨?_, ?_, ?_, ?_, ?_⟩
  · intro vid text now hsub
    constructor <;> simp [editQuestion, retractQuestion, hq, hsub]
  · intro vid text now hsub hwin
    constructor <;> simp [editQuestion, retractQuestion, hq, hsub, hwin]
  · intro vid now hsub hwin
    have hw2 : ¬ (now - q.createdAt > EDIT_WINDOW_MS) := by omega
    constructor
    · simp only [retractQuestion, hq]
      rw [if_neg (by simp [hsub]), if_neg hw2]
      exact ⟨_, rfl⟩
    · intro text ht hlen
      have hl2 : ¬ ((jsTrim text).length > 280) := by omega
      simp only [editQuestion, hq]
      rw [if_neg (by simp [hsub]), if_neg hw2, if_neg ht, if_neg hl2]
      exact ⟨_, rfl⟩
  · intro vid text now s2 h
    by_cases hsub : q.submitterId = some vid
    · by_cases hwin : now - q.createdAt ≤ EDIT_WINDOW_MS
      · exact ⟨hsub, hwin⟩
      · have hw : now - q.createdAt > EDIT_WINDOW_MS := by omega
        simp [editQuestion, hq, hsub, hw] at h
    · simp [editQuestion, hq, hsub] at h
  · intro vid now s2 h
    by_cases hsub : q.submitterId = some vid
    · by_cases hwin : now - q.createdAt ≤ EDIT_WINDOW_MS
      · exact ⟨hsub, hwin⟩
      · have hw : now - q.createdAt > EDIT_WINDOW_MS := by omega
        simp [retractQuestion, hq, hsub, hw] at h
    · simp [retractQuestion, hq, hsub] at h

/-- Witness for C6 at the sample store. -/
theorem edit_retract_window_and_ownership_witness :
    storeA.questions.find? (fun q' => q'.id = "q1") = some qA ∧
    EditRetractSpec storeA "q1" qA :=
  ⟨by decide, edit_retract_window_and_ownership storeA "q1" qA (by decide)⟩

lemma submitQuestion_ok_shape
    (s : Store) (eventId text : String) (isAnon : Bool)
    (subName : Option String) (cookie : Option String) (newId : String)
    (now : Int) (s' : Store) (q : Question)
    (h : submitQuestion s eventId text isAnon subName cookie newId now =
      Except.ok (s', q)) :
    q.id = newId ∧ q.submitterId = cookie ∧
    s'.questions = s.questions ++ [q] := by
  unfold submitQuestion at h
  split at h
  · exact Except.noConfusion h
  · split at h
    · exact Except.noConfusion h
    · split at h
      · exact Except.noConfusion h
      · split at h
        · exact Except.noConfusion h
        · injection h with h
          injection h with hA hB
          subst hA
          subst hB
          refine ⟨rfl, rfl, rfl⟩

/-- C9: a question submitted without a voter cookie is stored with a null
submitter identity, and (the new id being fresh) no later edit or retract
of it can succeed: a cookieless caller is rejected Unauthorized, and every
voter identity fails the submitter match, at any time, even inside the edit
window. -/
theorem cookieless_submission_never_editable
    (s : Store) (eventId text : String) (isAnon : Bool)
    (subName : Option String) (newId : String) (now : Int)
    (s' : Store) (q : Question)
    (hfresh : ∀ q' ∈ s.questions, q'.id ≠ newId)
    (hsub : submitQuestion s eventId text isAnon subName none newId now =
      Except.ok (s', q)) :
    q.submitterId = none ∧
    (∀ (voterId : Option String) (t : String) (now2 : Int),
      (∀ s2, editQuestion s' q.id voterId t now2 ≠ Except.ok s2) ∧
      (∀ s2, retractQuestion s' q.id voterId now2 ≠ Except.ok s2)) := by
  obtain ⟨hid, hnull, hqs⟩ :=
    submitQuestion_ok_shape s eventId text isAnon subName none newId now s' q
      hsub
  have hfind : s'.questions.find? (fun q' => q'.id = q.id) = some q := by
    rw [hqs, List.find?_append]
    have h1 : s.questions.find? (fun q' => q'.id = q.id) = none := by
      rw [List.find?_eq_none]
      intro x hx
      simp [hfresh x hx, hid]
    rw [h1]
    simp
  refine ⟨hnull, ?_⟩
  intro voterId t now2
  cases voterId with
  | none =>
    constructor <;> intro s2 <;>
      simp [editQuestion, retractQuestion]
  | some vid =>
    have hne : q.submitterId ≠ some vid := by simp [hnull]
    constructor <;> intro s2 <;>
      simp [editQuestion, retractQuestion, hfind, hne]

/-- Witness for C9: submitting to the sample store without a cookie. -/
theorem cookieless_submission_never_editable_witness :
    (∀ q' ∈ storeA.questions, q'.id ≠ "q9") ∧
    ((submitQuestion storeA "e1" "why" true none none "q9" 50).isOk = true) ∧
    (∀ (s' : Store) (q : Question),
      submitQuestion storeA "e1" "why" true none none "q9" 50 =
        Except.ok (s', q) →
      q.submitterId = none ∧
      (∀ (voterId : Option String) (t : String) (now2 : Int),
        (∀ s2, editQuestion s' q.id voterId t now2 ≠ Except.ok s2) ∧
        (∀ s2, retractQuestion s' q.id voterId now2 ≠ Except.ok s2))) :=
  ⟨by decide, by decide,
   fun s' q h =>
     cookieless_submission_never_editable storeA "e1" "why" true none "q9" 50
       s' q (by decide) h⟩

/-! ## Audience filtering (C7) -/

lemma sortViews_perm (mode : SortMode) (l : List QuestionView) :
    (sortViews mode l).Perm l := by
  cases mode with
  | score => exact List.mergeSort_perm l leScore
  | newest => exact List.mergeSort_perm l leNewest

lemma questionFilter_false_eq (e : String) (q : Question) :
    questionFilter false e q =
      decide (q.eventId = e ∧ q.status = QStatus.OPEN ∧
        q.isHidden = false) := by
  simp only [questionFilter, decide_eq_decide]
  tauto

lemma questionFilter_true_eq (e : String) (q : Question) :
    questionFilter true e q = decide (q.eventId = e) := by
  simp only [questionFilter, decide_eq_decide]
  tauto

/-- The audience-filter property of the list endpoint: the public list is
(up to the sort's permutation) exactly the enrichment of the event's OPEN
and not-hidden questions, every public view is un-hidden and OPEN, the host
list is exactly the enrichment of all questions of the event, and the
hidden flag of the underlying row is carried verbatim onto every view. -/
def ListFilterSpec (s : Store) (e : String) (voterId : Option String)
    (lPub lHost : List QuestionView) : Prop :=
  lPub.Perm ((s.questions.filter (fun q =>
      decide (q.eventId = e ∧ q.status = QStatus.OPEN ∧
        q.isHidden = false))).map (enrich s.votes voterId)) ∧
  (∀ v ∈ lPub, v.isHidden = false ∧ v.status = QStatus.OPEN) ∧
  lHost.Perm ((s.questions.filter (fun q => decide (q.eventId = e))).map
    (enrich s.votes voterId)) ∧
  (∀ q ∈ s.questions, (enrich s.votes voterId q).isHidden = q.isHidden)

/-- C7: a non-host call of listQuestions returns exactly the event's OPEN,
un-hidden questions (hidden questions are absent), while a host call
returns every question of the event unfiltered, with the hidden flag
carried on each returned view. -/
theorem list_questions_audience_filter
    (s : Store) (e : String) (mode : SortMode) (voterId : Option String)
    (lPub lHost : List QuestionView)
    (hpub : listQuestions s e mode false voterId = Except.ok lPub)
    (hhost : listQuestions s e mode true voterId = Except.ok lHost) :
    ListFilterSpec s e voterId lPub lHost := by
  cases hev : s.events.find? (fun ev => ev.id = e) with
  | none =>
    rw [listQuestions, hev] at hpub
    exact Except.noConfusion hpub
  | some ev =>
    rw [listQuestions, hev] at hpub hhost
    injection hpub with hpub
    injection hhost with hhost
    subst hpub
    subst hhost
    refine ⟨?_, ?_, ?_, fun q _ => by simp [enrich]⟩
    · have hperm := sortViews_perm mode
        ((s.questions.filter (questionFilter false e)).map
          (enrich s.votes voterId))
      have hfeq : s.questions.filter (questionFilter false e)
          = s.questions.filter (fun q =>
              decide (q.eventId = e ∧ q.status = QStatus.OPEN ∧
                q.isHidden = false)) :=
        List.filter_congr (fun q _ => questionFilter_false_eq e q)
      rw [← hfeq]
      exact hperm
    · intro v hv
      have hv2 := (sortViews_perm mode _).mem_iff.mp hv
      rcases List.mem_map.mp hv2 with ⟨q0, hq0, rfl⟩
      rcases List.mem_filter.mp hq0 with ⟨-, hcond⟩
      rw [questionFilter_false_eq] at hcond
      rw [decide_eq_true_eq] at hcond
      simp [enrich, hcond.2.1, hcond.2.2]
    · have hperm := sortViews_perm mode
        ((s.questions.filter (questionFilter true e)).map
          (enrich s.votes voterId))
      have hfeq : s.questions.filter (questionFilter true e)
          = s.questions.filter (fun q => decide (q.eventId = e)) :=
        List.filter_congr (fun q _ => questionFilter_true_eq e q)
      rw [← hfeq]
      exact hperm

/-- Sample hidden question used by the C7 witness. -/
def qH : Question := { qA with id := "q2", isHidden := true, createdAt := 5 }

/-- Sample store with one visible and one hidden question. -/
def storeD : Store := { storeA with questions := [qA, qH] }

/-- Witness for C7: the hidden question is absent from the public list and
present, flagged hidden, in the host list. -/
theorem list_questions_audience_filter_witness :
    listQuestions storeD "e1" .score false none =
      Except.ok [enrich storeD.votes none qA] ∧
    listQuestions storeD "e1" .score true none =
      Except.ok [enrich storeD.votes none qH, enrich storeD.votes none qA] ∧
    ListFilterSpec storeD "e1" none [enrich storeD.votes none qA]
      [enrich storeD.votes none qH, enrich storeD.votes none qA] := by
  have h1 : listQuestions storeD "e1" .score false none =
      Except.ok [enrich storeD.votes none qA] := by
    simp [listQuestions, storeD, storeA, qA, qH, evA, questionFilter,
      sortViews, List.mergeSort, enrich, votesFor]
  have h2 : listQuestions storeD "e1" .score true none =
      Except.ok [enrich storeD.votes none qH, enrich storeD.votes none qA] := by
    simp [listQuestions, storeD, storeA, qA, qH, evA, questionFilter,
      sortViews, List.mergeSort, enrich, votesFor, leScore, cmpScore,
      pinBit, pinTime, jsOr]
  exact ⟨h1, h2,
    list_questions_audience_filter storeD "e1" .score none _ _ h1 h2⟩

/-! ## Optimistic client reconciliation (C8) -/

/-- The client reconciliation property: in the poll merge, a server
question whose id is marked in-flight and that exists locally keeps the
local copy (the server copy is discarded) and any other question takes the
server copy; and once the vote write's own response is applied on top of
the merged batch, every entry with the written question's id carries the
response's score and vote state, never the polled values. -/
def MergeSpec (localQs server : List QuestionView) (inFlight : List String)
    (qid : String) (sc : Int) (mv : Option Int) : Prop :=
  (∀ p ∈ server.zip (mergePoll localQs server inFlight),
    (inFlight.contains p.1.id = true →
      ∀ lq, lookupLocal localQs p.1.id = some lq → p.2 = lq) ∧
    (inFlight.contains p.1.id = false → p.2 = p.1)) ∧
  (∀ v ∈ applyVoteResponse (mergePoll localQs server inFlight) qid sc mv,
    v.id = qid → v.score = sc ∧ v.myVote = mv)

/-- C8: the poll-merge function keeps local copies of in-flight questions
and takes server copies otherwise, and the displayed state of a question
after its vote write completes equals the write's own response, never a
stale poll value that arrived while the write was in flight. -/
theorem poll_merge_keeps_in_flight_and_write_wins
    (localQs server : List QuestionView) (inFlight : List String)
    (qid : String) (sc : Int) (mv : Option Int) :
    MergeSpec localQs server inFlight qid sc mv := by
  constructor
  · intro p hp
    rw [mergePoll] at hp
    have hzip : server.zip (server.map (fun sq =>
        if inFlight.contains sq.id then (lookupLocal localQs sq.id).getD sq
        else sq)) = server.map (fun sq => (sq,
          if inFlight.contains sq.id then (lookupLocal localQs sq.id).getD sq
          else sq)) := by
      have h0 := List.zip_map' id
        (fun sq => if inFlight.contains sq.id then
            (lookupLocal localQs sq.id).getD sq else sq) server
      rwa [List.map_id] at h0
    rw [hzip] at hp
    rcases List.mem_map.mp hp with ⟨sq, -, rfl⟩
    constructor
    · intro hin lq hlq
      dsimp only at hin hlq ⊢
      rw [if_pos hin, hlq]
      rfl
    · intro hout
      dsimp only at hout ⊢
      rw [if_neg (by rw [hout]; exact Bool.false_ne_true)]
  · intro v hv hid
    rw [applyVoteResponse] at hv
    rcases List.mem_map.mp hv with ⟨q0, -, rfl⟩
    by_cases h0 : q0.id = qid
    · constructor <;> simp [h0]
    · rw [if_neg h0] at hid
      exact absurd hid h0

/-- Witness for C8 at concrete lists: one in-flight question. -/
theorem poll_merge_keeps_in_flight_and_write_wins_witness :
    MergeSpec [viewP 5 20] [viewP 10 10] ["x"] "x" 7 (some 1) :=
  poll_merge_keeps_in_flight_and_write_wins [viewP 5 20] [viewP 10 10]
    ["x"] "x" 7 (some 1)

end AMA
